import Mathlib

/-!
Shallow embedding of `usbll2sr.py`: a converter from USB packet captures to
sigrok logic-capture archives.  Bytes are modeled as natural numbers; the
source only uses `% 2`, `// 2`, `& 1` and `>> 1` on them.  Archive entries
are modeled as lists of bytes; the zip container itself (version and
metadata entries) is outside the properties below, which concern the data
slices, the sample counter, and the encoder.
-/

namespace Usbll2sr

/-- State of `SimpleSRWriter` (usbll2sr.py lines 21-84).  `slices` holds the
finalized `logic-1-k` entries in order (the entry index is the 1-based list
position; the source's `_current_slice` counter is that position and is not
tracked separately).  `closed` records that `close()` sealed the archive.
The source's write loop does not terminate when the slice limit is not
positive; the program always constructs the writer with
`slice_limit=16777216`, so positivity is carried as a field. -/
structure SimpleSRWriter where
  channels : List String
  sample_rate : Nat
  unit_size : Nat
  slice_limit : Nat
  slice_limit_pos : 0 < slice_limit
  slice_buffer : List Nat
  slices : List (List Nat)
  sample_counter : Nat
  closed : Bool

/-- `SimpleSRWriter.__init__` (lines 22-47): `unit_size = -(-len(channels) // 8)`
with Python floor division, i.e. `Int.fdiv`. -/
def SimpleSRWriter.init (channels : List String) (sample_rate : Nat)
    (slice_limit : Nat) (hpos : 0 < slice_limit) : SimpleSRWriter :=
  { channels := channels
    sample_rate := sample_rate
    unit_size := (-(Int.fdiv (-(channels.length : Int)) 8)).toNat
    slice_limit := slice_limit
    slice_limit_pos := hpos
    slice_buffer := []
    slices := []
    sample_counter := 0
    closed := false }

/-- `_finalize_current_slice` (lines 49-54): flush the buffer as a new archive
entry and open a fresh empty buffer. -/
def SimpleSRWriter.finalize_current_slice (w : SimpleSRWriter) : SimpleSRWriter :=
  { w with slices := w.slices ++ [w.slice_buffer], slice_buffer := [] }

/-- The `while True` loop of `write_samples` (lines 60-68).  `limit - buf.length`
is the source's `remaining`; when the input is larger, the buffer is filled to
capacity, flushed as a finalized entry, and the loop repeats on the remainder. -/
def writeLoop (limit : Nat) (hpos : 0 < limit) (buf : List Nat)
    (slices : List (List Nat)) (samples : List Nat) : List Nat × List (List Nat) :=
  if h : samples.length > limit - buf.length then
    writeLoop limit hpos [] (slices ++ [buf ++ samples.take (limit - buf.length)])
      (samples.drop (limit - buf.length))
  else
    (buf ++ samples, slices)
termination_by (samples.length, buf.length)
decreasing_by
  simp only [List.length_drop]
  rcases Nat.eq_zero_or_pos (limit - buf.length) with h0 | h1
  · have hb : 0 < buf.length := by omega
    rw [h0, Nat.sub_zero]
    exact Prod.Lex.right _ hb
  · exact Prod.Lex.left _ _ (by omega)

/-- `write_samples` (lines 56-69): alignment check, the slice-splitting loop,
then the sample counter advances by `len(samples) // unit_size`. -/
def SimpleSRWriter.write_samples (w : SimpleSRWriter) (samples : List Nat) :
    Except String SimpleSRWriter :=
  if samples.length % w.unit_size ≠ 0 then
    .error ("Unaligned sample write.")
  else
    .ok { w with
          slice_buffer := (writeLoop w.slice_limit w.slice_limit_pos w.slice_buffer w.slices samples).1
          slices := (writeLoop w.slice_limit w.slice_limit_pos w.slice_buffer w.slices samples).2
          sample_counter := w.sample_counter + samples.length / w.unit_size }

/-- `fill_sample` (lines 71-76): writes `pattern * count` through
`write_samples` (which already advances the counter) and then advances the
counter by `total_length // unit_size` a second time. -/
def SimpleSRWriter.fill_sample (w : SimpleSRWriter) (pattern : List Nat) (count : Nat) :
    Except String SimpleSRWriter :=
  if (pattern.length * count) % w.unit_size ≠ 0 then
    .error ("Unaligned sample write.")
  else
    match w.write_samples ((List.replicate count pattern).flatten) with
    | .error e => .error e
    | .ok w2 => .ok { w2 with
        sample_counter := w2.sample_counter + (pattern.length * count) / w.unit_size }

/-- `sample_count` property (lines 78-80). -/
def SimpleSRWriter.sample_count (w : SimpleSRWriter) : Nat := w.sample_counter

/-- `close` (lines 82-84): flush the pending slice and seal the archive. -/
def SimpleSRWriter.close (w : SimpleSRWriter) : SimpleSRWriter :=
  { w.finalize_current_slice with closed := true }

/-- All data bytes held by the writer, finalized slices first, pending buffer
last.  "Total bytes written so far" in the spec's invariants. -/
def writerBytes (w : SimpleSRWriter) : List Nat :=
  w.slices.flatten ++ w.slice_buffer

/-- `CHIRP_TO_SAMPLE['ls']` (lines 89-94). -/
def lsMap : Char → Nat := fun c =>
  if c = 'j' then 1 else if c = 'k' then 2 else if c = 's' then 0 else
  if c = 'S' then 3 else 0

/-- `CHIRP_TO_SAMPLE['fs']` (lines 95-100). -/
def fsMap : Char → Nat := fun c =>
  if c = 'j' then 2 else if c = 'k' then 1 else if c = 's' then 0 else
  if c = 'S' then 3 else 0

/-- The outer `CHIRP_TO_SAMPLE` dict (lines 88-101); `none` models the
`KeyError` for an unknown signaling name. -/
def CHIRP_TO_SAMPLE (signaling : String) : Option (Char → Nat) :=
  if signaling = "ls" then some lsMap
  else if signaling = "fs" then some fsMap
  else none

/-- State of `USBSignaling` (lines 87-151).  `σ` is the type of whatever object
is passed as the constructor's `sr` parameter and stored in `self._sr`; in the
program's `__main__` it is the signaling *string* (see `mainUSBSignaling`). -/
structure USBSignaling (σ : Type) where
  state : Char
  _sr : σ
  c2s : Char → Nat
  interpolate : Nat

/-- `USBSignaling.__init__` (lines 103-107).  The source declares the
`signaling` parameter with default `'fs'`; callers that pass only two
positional arguments get that default.  `none` models the `KeyError` on an
unknown signaling name. -/
def USBSignaling.init {σ : Type} (sr : σ) (interpolate : Nat) (signaling : String) :
    Option (USBSignaling σ) :=
  (CHIRP_TO_SAMPLE signaling).map fun m =>
    { state := 'j', _sr := sr, c2s := m, interpolate := interpolate }

/-- The byte string `bytes(_double(seq))` built by `emit_chirps`
(lines 110-114): each chirp's sample value, repeated `interpolate` times. -/
def chirpSamples {σ : Type} (self : USBSignaling σ) (seq : List Char) : List Nat :=
  seq.flatMap fun c => List.replicate self.interpolate (self.c2s c)

/-- `emit_chirps` (lines 109-116).  Line 114 writes through the module-level
global name `sr` — not through `self._sr` — so the global writer is an
explicit parameter `globalSr` here and the `_sr` field is never consulted.
On an unaligned write the exception propagates with both states unchanged
(the source's check precedes any mutation); `seq[-1]` on an empty sequence
raises `IndexError`, modeled by the error string. -/
def USBSignaling.emit_chirps {σ : Type} (self : USBSignaling σ) (globalSr : SimpleSRWriter)
    (seq : List Char) (update_state : Bool) :
    Except String Unit × SimpleSRWriter × USBSignaling σ :=
  match globalSr.write_samples (chirpSamples self seq) with
  | .error e => (.error e, globalSr, self)
  | .ok g2 =>
    if update_state then
      match seq.getLast? with
      | some c => (.ok (), g2, { self with state := c })
      | none => (.error ("string index out of range"), g2, self)
    else
      (.ok (), g2, self)

/-- `emit_sync` (lines 118-119): the fixed SYNC pattern, updating state. -/
def USBSignaling.emit_sync {σ : Type} (self : USBSignaling σ) (globalSr : SimpleSRWriter) :
    Except String Unit × SimpleSRWriter × USBSignaling σ :=
  self.emit_chirps globalSr (("kjkjkjkk").toList) true

/-- `emit_eop` (lines 121-122): the fixed EOP pattern, updating state. -/
def USBSignaling.emit_eop {σ : Type} (self : USBSignaling σ) (globalSr : SimpleSRWriter) :
    Except String Unit × SimpleSRWriter × USBSignaling σ :=
  self.emit_chirps globalSr (("ssj").toList) true

/-- `emit_stall` (lines 124-130).  `self._state * cycles` is the current state
repeated `cycles` times. -/
def USBSignaling.emit_stall {σ : Type} (self : USBSignaling σ) (globalSr : SimpleSRWriter)
    (cycles : Int) : Except String Unit × SimpleSRWriter × USBSignaling σ :=
  if cycles < 0 then
    (.error ("Cycles must be 0 or positive."), globalSr, self)
  else if cycles = 0 then
    (.ok (), globalSr, self)
  else
    self.emit_chirps globalSr (List.replicate cycles.toNat self.state) true

/-- `_jk[i]` for the string `'jk'` (line 135); the index is always 0 or 1. -/
def jkChar (i : Nat) : Char := if i = 0 then 'j' else 'k'

/-- `_jk.index(self._state)` (line 136); the state is always `'j'` or `'k'`. -/
def jkIndex (c : Char) : Nat := if c = 'j' then 0 else 1

/-- One byte of the `_to_chirp` generator (lines 137-149): the inner
`for _ in range(8)` loop.  Arguments: remaining iterations, current `byte`,
`tmp`, `stuff`.  Python's `~tmp & 1` is `1 - tmp % 2` on non-negative `tmp`.
Note that after an inserted stuffed chirp the source does NOT reset `stuff`. -/
def toChirpByte : Nat → Nat → Nat → Nat → List Char × Nat × Nat
  | 0, _, tmp, stuff => ([], tmp, stuff)
  | n + 1, byte, tmp, stuff =>
    let tmp1 := if byte % 2 = 0 then 1 - tmp % 2 else tmp
    let stuff1 := if byte % 2 = 0 then 0 else stuff + 1
    let tmp2 := if stuff1 ≥ 6 then 1 - tmp1 % 2 else tmp1
    let stuffed := if stuff1 ≥ 6 then [jkChar tmp2] else []
    (jkChar tmp1 :: (stuffed ++ (toChirpByte n (byte / 2) tmp2 stuff1).1),
     (toChirpByte n (byte / 2) tmp2 stuff1).2)

/-- The `_to_chirp` generator over the whole payload (lines 133-150),
returning the chirp sequence and the final `tmp` level that the generator
stores back into `self._state` on exhaustion. -/
def toChirp : List Nat → Nat → Nat → List Char × Nat
  | [], tmp, _ => ([], tmp)
  | byte :: rest, tmp, stuff =>
    ((toChirpByte 8 byte tmp stuff).1 ++
       (toChirp rest (toChirpByte 8 byte tmp stuff).2.1 (toChirpByte 8 byte tmp stuff).2.2).1,
     (toChirp rest (toChirpByte 8 byte tmp stuff).2.1 (toChirpByte 8 byte tmp stuff).2.2).2)

/-- `emit_bytes` (lines 132-151).  `bytes(_double(seq))` inside `emit_chirps`
exhausts the generator before the write, so `self._state` is already updated
when `write_samples` runs; `emit_chirps` is then called with
`update_state=False`. -/
def USBSignaling.emit_bytes {σ : Type} (self : USBSignaling σ) (globalSr : SimpleSRWriter)
    (seq : List Nat) : Except String Unit × SimpleSRWriter × USBSignaling σ :=
  USBSignaling.emit_chirps
    { self with state := jkChar (toChirp seq (jkIndex self.state) 0).2 }
    globalSr (toChirp seq (jkIndex self.state) 0).1 false

/-- The `USB_SPEED` table (lines 14-18); `none` models a missing key. -/
def USB_SPEED (signaling : String) : Option Nat :=
  if signaling = "ls" then some 1500000
  else if signaling = "fs" then some 12000000
  else none

/-- Floor of a rational, written with `Int.fdiv` (the denominator is
positive, so this is the mathematical floor). -/
def ratFloor (q : Rat) : Int := Int.fdiv q.num (q.den : Int)

/-- Python's `round()` on the exact rational `delta * speed`: round half to
even (packet timestamps are `Decimal`s, whose default rounding context is
ROUND_HALF_EVEN). -/
def pyRound (q : Rat) : Int :=
  if q - (ratFloor q : Rat) < (1 : Rat) / 2 then ratFloor q
  else if (1 : Rat) / 2 < q - (ratFloor q : Rat) then ratFloor q + 1
  else if ratFloor q % 2 = 0 then ratFloor q else ratFloor q + 1

/-- Line 183: `usb = USBSignaling(args.signaling, args.interpolate)`.  Only two
positional arguments are passed, so the signaling string binds to the `sr`
parameter and the `signaling` parameter takes its declared default `'fs'`. -/
def mainUSBSignaling (signaling : String) (interpolate : Nat) :
    Option (USBSignaling String) :=
  USBSignaling.init signaling interpolate ("fs")

/-- The loop-carried variables of the `__main__` timing loop (lines 184-200):
the global writer `sr`, the encoder `usb`, `begins_at_ticks`, `ends_at_ticks`
and `last_pkt_at`. -/
structure LoopSt where
  w : SimpleSRWriter
  u : USBSignaling String
  begins_at_ticks : Nat
  ends_at_ticks : Nat
  last_pkt_at : Rat

/-- The `for pkt in pcap` loop (lines 187-200).  A packet is a timestamp (in
seconds, exact) together with its payload bytes.  On an exception the loop
aborts; the states carried at that point are returned so that the
`contextlib.closing` wrapper can still finalize the writer. -/
def timingLoop (speed interpolate : Nat) :
    List (Rat × List Nat) → LoopSt → Except String Unit × LoopSt
  | [], st => (.ok (), st)
  | (t, payload) :: rest, st =>
    let dtInter : Int := pyRound ((t - st.last_pkt_at) * (speed : Rat))
    let dtIntra : Int := (st.ends_at_ticks : Int) - (st.begins_at_ticks : Int)
    if dtIntra > dtInter then
      (.error ("Previous packet cannot be trasferred on time. Wrong signaling type?"), st)
    else
      match st.u.emit_stall st.w (dtInter - dtIntra) with
      | (.error e, w1, u1) => (.error e, { st with w := w1, u := u1 })
      | (.ok _, w1, u1) =>
        match u1.emit_sync w1 with
        | (.error e, w2, u2) =>
          (.error e, { st with
                       w := w2
                       u := u2
                       begins_at_ticks := w1.sample_count / interpolate })
        | (.ok _, w2, u2) =>
          match u2.emit_bytes w2 payload with
          | (.error e, w3, u3) =>
            (.error e, { st with
                         w := w3
                         u := u3
                         begins_at_ticks := w1.sample_count / interpolate })
          | (.ok _, w3, u3) =>
            match u3.emit_eop w3 with
            | (.error e, w4, u4) =>
              (.error e, { st with
                           w := w4
                           u := u4
                           begins_at_ticks := w1.sample_count / interpolate })
            | (.ok _, w4, u4) =>
              timingLoop speed interpolate rest
                { w := w4
                  u := u4
                  begins_at_ticks := w1.sample_count / interpolate
                  ends_at_ticks := w4.sample_count / interpolate
                  last_pkt_at := t }

/-- The `__main__` block (lines 174-201).  `none` models the paths that never
reach the timing loop: an unknown signaling profile (usage error before any
output), and an empty capture (line 180 `pcap[0].time` raises before the
writer is created).  Otherwise the result of the run is returned together
with the final writer; `contextlib.closing` (line 182) invokes `close()` on
every exit path, including exceptions. -/
def runMain (signaling : String) (interpolate : Nat) (start_padding end_padding : Int)
    (pcap : List (Rat × List Nat)) : Option (Except String Unit × SimpleSRWriter) :=
  match USB_SPEED signaling with
  | none => none
  | some speed =>
    match pcap with
    | [] => none
    | p0 :: _ =>
      match mainUSBSignaling signaling interpolate with
      | none => none
      | some usb0 =>
        match usb0.emit_stall
            (SimpleSRWriter.init [("D-"), ("D+")] (speed * interpolate) 16777216 (by decide))
            start_padding with
        | (.error e, w1, _) => some (.error e, w1.close)
        | (.ok _, w1, u1) =>
          match timingLoop speed interpolate pcap
              { w := w1
                u := u1
                begins_at_ticks := w1.sample_count / interpolate
                ends_at_ticks := w1.sample_count / interpolate
                last_pkt_at := p0.1 } with
          | (.error e, st) => some (.error e, st.w.close)
          | (.ok _, st) =>
            match st.u.emit_stall st.w end_padding with
            | (.error e, w2, _) => some (.error e, w2.close)
            | (.ok _, w2, _) => some (.ok (), w2.close)

/-- Modelled from the spec (claim C2's measuring stick): standard NRZI
decoding of a chirp sequence against the previous line state — a repeated
level decodes to 1, a transition to 0. -/
def specNrziDecode (prev : Char) : List Char → List Nat
  | [] => []
  | c :: rest => (if c = prev then 1 else 0) :: specNrziDecode c rest

/-- Modelled from the spec (claim C2's measuring stick): standard
bit-unstuffing — remove the bit following each run of 6 consecutive decoded
1-bits, resetting the run counter. -/
def specUnstuff (ones : Nat) : List Nat → List Nat
  | [] => []
  | b :: rest =>
    if 6 ≤ ones then specUnstuff 0 rest
    else b :: specUnstuff (if b = 1 then ones + 1 else 0) rest

/-- A payload as its bit sequence, least-significant bit first within each
byte, bytes in order. -/
def bytesToBits : List Nat → List Nat
  | [] => []
  | b :: rest => ((List.range 8).map fun i => b / 2 ^ i % 2) ++ bytesToBits rest

/-- A sequence of `write_samples` calls, aborting on the first exception. -/
def writeMany (w : SimpleSRWriter) : List (List Nat) → Except String SimpleSRWriter
  | [] => .ok w
  | xs :: rest =>
    match w.write_samples xs with
    | .error e => .error e
    | .ok w2 => writeMany w2 rest

/-- `true` exactly on a successful result. -/
def isOkE (e : Except String SimpleSRWriter) : Bool :=
  match e with
  | .ok _ => true
  | .error _ => false

/-- The writer produced by a successful result, or the fallback. -/
def okOr (d : SimpleSRWriter) (e : Except String SimpleSRWriter) : SimpleSRWriter :=
  match e with
  | .ok w => w
  | .error _ => d

/-- The writer as built once per run by `__main__` line 182 (two channels,
slice limit 16777216); the sample rate shown is `speed * interpolate` for the
full-speed profile at the default interpolation. -/
def testWriter : SimpleSRWriter :=
  SimpleSRWriter.init [("D-"), ("D+")] 48000000 16777216 (by decide)

/-- A full-speed encoder at interpolation 1 in its initial state, with a unit
`_sr` field (the stored writer object is never used for writing). -/
def testU : USBSignaling Unit :=
  { state := 'j', _sr := (), c2s := fsMap, interpolate := 1 }

theorem writeLoop_eq_pos (limit : Nat) (hpos : 0 < limit) (buf : List Nat)
    (slices : List (List Nat)) (samples : List Nat)
    (h : samples.length > limit - buf.length) :
    writeLoop limit hpos buf slices samples =
      writeLoop limit hpos [] (slices ++ [buf ++ samples.take (limit - buf.length)])
        (samples.drop (limit - buf.length)) := by
  rw [writeLoop]
  simp only [h, dif_pos]

theorem writeLoop_eq_neg (limit : Nat) (hpos : 0 < limit) (buf : List Nat)
    (slices : List (List Nat)) (samples : List Nat)
    (h : ¬ samples.length > limit - buf.length) :
    writeLoop limit hpos buf slices samples = (buf ++ samples, slices) := by
  rw [writeLoop]
  simp only [h, dif_neg, not_false_iff]

/-- The slice-splitting loop loses no bytes and invents none: finalized
slices followed by the pending buffer hold exactly the old content plus the
new samples. -/
theorem writeLoop_conserve (limit : Nat) (hpos : 0 < limit) (buf : List Nat)
    (slices : List (List Nat)) (samples : List Nat) :
    (writeLoop limit hpos buf slices samples).2.flatten ++
        (writeLoop limit hpos buf slices samples).1 =
      slices.flatten ++ buf ++ samples := by
  induction buf, slices, samples using writeLoop.induct limit hpos with
  | case1 buf slices samples h ih =>
    rw [writeLoop_eq_pos limit hpos buf slices samples h]
    rw [ih]
    simp [List.flatten_append]
  | case2 buf slices samples h =>
    rw [writeLoop_eq_neg limit hpos buf slices samples h]
    simp [List.append_assoc]

/-- The slice-splitting loop keeps the pending buffer and every finalized
slice within the slice limit. -/
theorem writeLoop_bounds (limit : Nat) (hpos : 0 < limit) (buf : List Nat)
    (slices : List (List Nat)) (samples : List Nat) :
    buf.length ≤ limit → (∀ s ∈ slices, s.length ≤ limit) →
      (writeLoop limit hpos buf slices samples).1.length ≤ limit ∧
        ∀ s ∈ (writeLoop limit hpos buf slices samples).2, s.length ≤ limit := by
  induction buf, slices, samples using writeLoop.induct limit hpos with
  | case1 buf slices samples h ih =>
    intro hb hs
    rw [writeLoop_eq_pos limit hpos buf slices samples h]
    refine ih (by simp) ?_
    intro s hsmem
    rcases List.mem_append.mp hsmem with h1 | h2
    · exact hs s h1
    · have hse : s = buf ++ samples.take (limit - buf.length) := by simpa using h2
      subst hse
      simp only [List.length_append, List.length_take]
      omega
  | case2 buf slices samples h =>
    intro hb hs
    rw [writeLoop_eq_neg limit hpos buf slices samples h]
    constructor
    · simp only [List.length_append]
      omega
    · exact hs

theorem write_samples_error (w : SimpleSRWriter) (samples : List Nat)
    (h : samples.length % w.unit_size ≠ 0) :
    w.write_samples samples = .error ("Unaligned sample write.") := by
  unfold SimpleSRWriter.write_samples
  rw [if_pos h]

theorem write_samples_isOk (w : SimpleSRWriter) (samples : List Nat)
    (h : samples.length % w.unit_size = 0) :
    ∃ w', w.write_samples samples = .ok w' := by
  unfold SimpleSRWriter.write_samples
  rw [if_neg (by simp [h])]
  exact ⟨_, rfl⟩

/-- What one successful `write_samples` call does: appends the input to the
writer's data, advances the counter by `len / unit_size`, keeps the
configuration fields, and preserves the slice-size bounds. -/
theorem write_samples_props (w : SimpleSRWriter) (samples : List Nat) (w' : SimpleSRWriter)
    (h : w.write_samples samples = .ok w') :
    writerBytes w' = writerBytes w ++ samples ∧
      w'.sample_counter = w.sample_counter + samples.length / w.unit_size ∧
      w'.unit_size = w.unit_size ∧ w'.slice_limit = w.slice_limit ∧
      w'.closed = w.closed ∧
      (w.slice_buffer.length ≤ w.slice_limit →
        (∀ s ∈ w.slices, s.length ≤ w.slice_limit) →
        (w'.slice_buffer.length ≤ w'.slice_limit ∧
          ∀ s ∈ w'.slices, s.length ≤ w'.slice_limit)) := by
  unfold SimpleSRWriter.write_samples at h
  split at h
  · exact absurd h (by simp)
  · have hw : w' = { w with
        slice_buffer := (writeLoop w.slice_limit w.slice_limit_pos w.slice_buffer w.slices samples).1
        slices := (writeLoop w.slice_limit w.slice_limit_pos w.slice_buffer w.slices samples).2
        sample_counter := w.sample_counter + samples.length / w.unit_size } := by
      cases h
      rfl
    subst hw
    refine ⟨?_, rfl, rfl, rfl, rfl, ?_⟩
    · show (writeLoop w.slice_limit w.slice_limit_pos w.slice_buffer w.slices samples).2.flatten ++
          (writeLoop w.slice_limit w.slice_limit_pos w.slice_buffer w.slices samples).1 = _
      rw [writeLoop_conserve]
      simp [writerBytes, List.append_assoc]
    · intro hb hs
      exact writeLoop_bounds w.slice_limit w.slice_limit_pos w.slice_buffer w.slices samples hb hs

theorem chirpSamples_replicate {σ : Type} (u : USBSignaling σ) (n : Nat) (c : Char) :
    chirpSamples u (List.replicate n c) = List.replicate (n * u.interpolate) (u.c2s c) := by
  induction n with
  | zero => simp [chirpSamples]
  | succ n ih =>
    rw [List.replicate_succ]
    simp only [chirpSamples, List.flatMap_cons] at ih ⊢
    rw [ih, Nat.succ_mul, Nat.add_comm (n * u.interpolate), List.replicate_add]

theorem getLast?_replicate_succ (n : Nat) (c : Char) :
    (List.replicate (n + 1) c).getLast? = some c := by
  induction n with
  | zero => rfl
  | succ n ih =>
    rw [List.replicate_succ, List.replicate_succ, List.getLast?_cons_cons, ← List.replicate_succ]
    exact ih

theorem emit_chirps_unaligned {σ : Type} (u : USBSignaling σ) (g : SimpleSRWriter)
    (seq : List Char) (b : Bool)
    (h : (chirpSamples u seq).length % g.unit_size ≠ 0) :
    u.emit_chirps g seq b = (.error ("Unaligned sample write."), g, u) := by
  unfold USBSignaling.emit_chirps
  rw [write_samples_error g _ h]

theorem emit_chirps_false {σ : Type} (u : USBSignaling σ) (g : SimpleSRWriter)
    (seq : List Char)
    (h : (chirpSamples u seq).length % g.unit_size = 0) :
    ∃ g', u.emit_chirps g seq false = (.ok (), g', u) ∧
      g.write_samples (chirpSamples u seq) = .ok g' := by
  obtain ⟨g', hg⟩ := write_samples_isOk g _ h
  refine ⟨g', ?_, hg⟩
  unfold USBSignaling.emit_chirps
  rw [hg]
  rfl

theorem emit_chirps_true {σ : Type} (u : USBSignaling σ) (g : SimpleSRWriter)
    (seq : List Char) (c : Char)
    (h : (chirpSamples u seq).length % g.unit_size = 0)
    (hl : seq.getLast? = some c) :
    ∃ g', u.emit_chirps g seq true = (.ok (), g', { u with state := c }) ∧
      g.write_samples (chirpSamples u seq) = .ok g' := by
  obtain ⟨g', hg⟩ := write_samples_isOk g _ h
  refine ⟨g', ?_, hg⟩
  unfold USBSignaling.emit_chirps
  rw [hg, hl]
  rfl

/-- Claim C6: `emit_stall(cycles)` raises the range error and leaves both the
writer and the encoder untouched when `cycles < 0`; is a no-op when
`cycles = 0`; and when `cycles > 0` leaves the persisted line state unchanged
and appends `cycles` repetitions of the current line state (each chirp
expanded to `interpolate` samples of its mapped value) to the writer — or, on
an unaligned write, leaves the writer untouched as the exception propagates. -/
theorem emit_stall_spec {σ : Type} (u : USBSignaling σ) (g : SimpleSRWriter) (cycles : Int) :
    (cycles < 0 →
      u.emit_stall g cycles = (.error ("Cycles must be 0 or positive."), g, u)) ∧
    (cycles = 0 → u.emit_stall g cycles = (.ok (), g, u)) ∧
    (0 < cycles →
      (u.emit_stall g cycles).2.2 = u ∧
      ((cycles.toNat * u.interpolate) % g.unit_size = 0 →
        writerBytes (u.emit_stall g cycles).2.1 =
          writerBytes g ++ List.replicate (cycles.toNat * u.interpolate) (u.c2s u.state)) ∧
      ((cycles.toNat * u.interpolate) % g.unit_size ≠ 0 →
        (u.emit_stall g cycles).2.1 = g)) := by
  refine ⟨?_, ?_, ?_⟩
  · intro h
    unfold USBSignaling.emit_stall
    rw [if_pos h]
  · intro h
    subst h
    rfl
  · intro h
    have hneg : ¬ cycles < 0 := by omega
    have hz : ¬ cycles = 0 := by omega
    have hrep : u.emit_stall g cycles = u.emit_chirps g (List.replicate cycles.toNat u.state) true := by
      unfold USBSignaling.emit_stall
      rw [if_neg hneg, if_neg hz]
    have hlen : (chirpSamples u (List.replicate cycles.toNat u.state)).length =
        cycles.toNat * u.interpolate := by
      rw [chirpSamples_replicate]
      simp
    have hn : cycles.toNat = (cycles.toNat - 1) + 1 := by omega
    by_cases hal : (cycles.toNat * u.interpolate) % g.unit_size = 0
    · obtain ⟨g', hg, hw⟩ := emit_chirps_true u g (List.replicate cycles.toNat u.state) u.state
        (by rw [hlen]; exact hal) (by rw [hn]; exact getLast?_replicate_succ _ _)
      refine ⟨?_, ?_, ?_⟩
      · rw [hrep, hg]
      · intro _
        rw [hrep, hg]
        have hb := (write_samples_props g _ g' hw).1
        rw [chirpSamples_replicate] at hb
        exact hb
      · intro hc
        exact absurd hal hc
    · have he := emit_chirps_unaligned u g (List.replicate cycles.toNat u.state) true
        (by rw [hlen]; exact hal)
      refine ⟨?_, ?_, ?_⟩
      · rw [hrep, he]
      · intro hc
        exact absurd hc hal
      · intro _
        rw [hrep, he]

/-- Claim C9: `emit_sync()` emits the fixed 8-symbol pattern K,J,K,J,K,J,K,K,
updating the line state to K; with interpolation 1 on the full-speed mapping
and the program's unit size 1 the bytes appended to the writer are exactly
[1,2,1,2,1,2,1,1]. -/
theorem emit_sync_fullspeed {σ : Type} (u : USBSignaling σ) (g : SimpleSRWriter)
    (hc : u.c2s = fsMap) (hi : u.interpolate = 1) (hu : g.unit_size = 1) :
    (u.emit_sync g).1 = .ok () ∧
    (u.emit_sync g).2.2.state = 'k' ∧
    writerBytes (u.emit_sync g).2.1 = writerBytes g ++ [1, 2, 1, 2, 1, 2, 1, 1] := by
  have hsamp : chirpSamples u (("kjkjkjkk").toList) = [1, 2, 1, 2, 1, 2, 1, 1] := by
    simp only [chirpSamples, hc, hi]
    rfl
  obtain ⟨g', hg, hw⟩ := emit_chirps_true u g (("kjkjkjkk").toList) 'k'
    (by rw [hsamp, hu]; decide) (by rfl)
  unfold USBSignaling.emit_sync
  rw [hg]
  refine ⟨rfl, rfl, ?_⟩
  have hb := (write_samples_props g _ g' hw).1
  rw [hsamp] at hb
  exact hb

theorem writeMany_props (xss : List (List Nat)) : ∀ (w w' : SimpleSRWriter),
    writeMany w xss = .ok w' →
      writerBytes w' = writerBytes w ++ xss.flatten ∧ w'.slice_limit = w.slice_limit ∧
      (w.slice_buffer.length ≤ w.slice_limit → (∀ s ∈ w.slices, s.length ≤ w.slice_limit) →
        (w'.slice_buffer.length ≤ w'.slice_limit ∧
          ∀ s ∈ w'.slices, s.length ≤ w'.slice_limit)) := by
  induction xss with
  | nil =>
    intro w w' h
    unfold writeMany at h
    cases h
    exact ⟨by simp, rfl, fun h1 h2 => ⟨h1, h2⟩⟩
  | cons xs rest ih =>
    intro w w' h
    unfold writeMany at h
    cases hw : w.write_samples xs with
    | error e =>
      rw [hw] at h
      cases h
    | ok w2 =>
      rw [hw] at h
      obtain ⟨hb, _, _, hl, _, hbounds⟩ := write_samples_props w xs w2 hw
      obtain ⟨ihb, ihl, ihbounds⟩ := ih w2 w' h
      refine ⟨?_, by rw [ihl, hl], ?_⟩
      · rw [ihb, hb]
        simp [List.append_assoc]
      · intro h1 h2
        obtain ⟨hb2, hs2⟩ := hbounds h1 h2
        exact ihbounds hb2 hs2

/-- Claim C7: starting from a fresh writer, any successful sequence of
`write_samples` calls whose total byte length exceeds the slice limit yields,
after `close`, at least two slice entries, every one of byte length at most
the configured slice limit (in particular every entry except possibly the
last; the loop fills the buffer to capacity, flushes it as a finalized entry,
opens a fresh buffer and repeats, else appends in place). -/
theorem write_samples_slicing (w0 : SimpleSRWriter) (xss : List (List Nat))
    (hfresh1 : w0.slices = []) (hfresh2 : w0.slice_buffer = [])
    (hok : isOkE (writeMany w0 xss) = true)
    (hbig : w0.slice_limit < xss.flatten.length) :
    2 ≤ ((okOr w0 (writeMany w0 xss)).close).slices.length ∧
      (((okOr w0 (writeMany w0 xss)).close).slices.all
        fun s => decide (s.length ≤ w0.slice_limit)) = true := by
  cases hres : writeMany w0 xss with
  | error e =>
    rw [hres] at hok
    simp [isOkE] at hok
  | ok w' =>
    obtain ⟨hbytes, hlim, hbounds⟩ := writeMany_props xss w0 w' hres
    obtain ⟨hbuf, hsl⟩ := hbounds (by rw [hfresh2]; simp) (by rw [hfresh1]; simp)
    rw [writerBytes, writerBytes, hfresh1, hfresh2] at hbytes
    simp only [List.flatten_nil, List.append_nil, List.nil_append] at hbytes
    have hne : w'.slices ≠ [] := by
      intro hcon
      rw [hcon] at hbytes
      simp only [List.flatten_nil, List.nil_append] at hbytes
      have h1 := hbuf
      rw [hbytes, hlim] at h1
      omega
    constructor
    · show 2 ≤ (w'.close).slices.length
      simp only [SimpleSRWriter.close, SimpleSRWriter.finalize_current_slice,
        List.length_append, List.length_cons, List.length_nil]
      have h2 := List.length_pos.mpr hne
      omega
    · show ((w'.close).slices.all fun s => decide (s.length ≤ w0.slice_limit)) = true
      simp only [SimpleSRWriter.close, SimpleSRWriter.finalize_current_slice]
      rw [List.all_eq_true]
      intro s hs
      rw [decide_eq_true_eq]
      rcases List.mem_append.mp hs with h1 | h2
      · have := hsl s h1
        rw [hlim] at this
        exact this
      · have hse : s = w'.slice_buffer := by simpa using h2
        subst hse
        rw [← hlim]
        exact hbuf

def c7Writer : SimpleSRWriter := SimpleSRWriter.init [("D-"), ("D+")] 100 3 (by decide)

theorem write_samples_slicing_witness :
    2 ≤ ((okOr c7Writer (writeMany c7Writer [[1, 2], [3, 4]])).close).slices.length ∧
      (((okOr c7Writer (writeMany c7Writer [[1, 2], [3, 4]])).close).slices.all
        fun s => decide (s.length ≤ c7Writer.slice_limit)) = true :=
  write_samples_slicing c7Writer [[1, 2], [3, 4]] rfl rfl
    (by simp [writeMany, SimpleSRWriter.write_samples, c7Writer, SimpleSRWriter.init,
      writeLoop, isOkE])
    (by decide)

theorem pyRound_zero : pyRound 0 = 0 := by
  norm_num [pyRound, ratFloor]

theorem timingLoop_overrun (speed interpolate : Nat) (st : LoopSt) (t : Rat)
    (payload : List Nat) (rest : List (Rat × List Nat))
    (h : pyRound ((t - st.last_pkt_at) * (speed : Rat)) <
        (st.ends_at_ticks : Int) - (st.begins_at_ticks : Int)) :
    timingLoop speed interpolate ((t, payload) :: rest) st =
      (.error ("Previous packet cannot be trasferred on time. Wrong signaling type?"), st) := by
  simp only [timingLoop]
  split
  · rfl
  · rename_i hc
    exact absurd h hc

theorem runMain_closes (signaling : String) (interpolate : Nat) (sp ep : Int)
    (pcap : List (Rat × List Nat)) :
    Option.all (fun r => r.2.closed && (r.2.slice_buffer == ([] : List Nat)))
      (runMain signaling interpolate sp ep pcap) = true := by
  unfold runMain
  repeat' split
  all_goals
    simp [Option.all, SimpleSRWriter.close, SimpleSRWriter.finalize_current_slice]

theorem overrun_error_no_context :
    (runMain ("fs") 1 0 0 [((0 : Rat), []), (0, [])]).map (fun r => r.1) =
      some (.error ("Previous packet cannot be trasferred on time. Wrong signaling type?")) ∧
    (runMain ("fs") 1 0 0 [((0 : Rat), [0]), (0, [0])]).map (fun r => r.1) =
      some (.error ("Previous packet cannot be trasferred on time. Wrong signaling type?")) := by
  constructor <;>
    simp [runMain, USB_SPEED, mainUSBSignaling, USBSignaling.init, CHIRP_TO_SAMPLE,
      SimpleSRWriter.init, USBSignaling.emit_stall, USBSignaling.emit_sync,
      USBSignaling.emit_eop, USBSignaling.emit_bytes, USBSignaling.emit_chirps,
      chirpSamples, SimpleSRWriter.write_samples, writeLoop, timingLoop,
      pyRound_zero, SimpleSRWriter.sample_count, toChirp, toChirpByte, jkChar, jkIndex,
      fsMap, SimpleSRWriter.close, SimpleSRWriter.finalize_current_slice]

theorem emit_chirps_sr {σ : Type} (u : USBSignaling σ) (x : σ) (g : SimpleSRWriter)
    (seq : List Char) (b : Bool) :
    ({ u with _sr := x }).emit_chirps g seq b =
      ((u.emit_chirps g seq b).1, (u.emit_chirps g seq b).2.1,
        { (u.emit_chirps g seq b).2.2 with _sr := x }) := by
  unfold USBSignaling.emit_chirps
  have hs : chirpSamples { u with _sr := x } seq = chirpSamples u seq := rfl
  rw [hs]
  cases g.write_samples (chirpSamples u seq) with
  | error e => rfl
  | ok g2 =>
    cases b with
    | false => rfl
    | true =>
      cases seq.getLast? with
      | none => rfl
      | some c => rfl

theorem emit_stall_sr {σ : Type} (u : USBSignaling σ) (x : σ) (g : SimpleSRWriter)
    (cycles : Int) :
    ({ u with _sr := x }).emit_stall g cycles =
      ((u.emit_stall g cycles).1, (u.emit_stall g cycles).2.1,
        { (u.emit_stall g cycles).2.2 with _sr := x }) := by
  unfold USBSignaling.emit_stall
  split_ifs with h1 h2
  · rfl
  · rfl
  · exact emit_chirps_sr u x g (List.replicate cycles.toNat u.state) true

theorem emit_bytes_sr {σ : Type} (u : USBSignaling σ) (x : σ) (g : SimpleSRWriter)
    (payload : List Nat) :
    ({ u with _sr := x }).emit_bytes g payload =
      ((u.emit_bytes g payload).1, (u.emit_bytes g payload).2.1,
        { (u.emit_bytes g payload).2.2 with _sr := x }) := by
  unfold USBSignaling.emit_bytes
  exact emit_chirps_sr { u with state := jkChar (toChirp payload (jkIndex u.state) 0).2 } x g
    (toChirp payload (jkIndex u.state) 0).1 false

/-- Claim C1 (failing input): `emit_bytes` does not reset the consecutive-ones
counter after inserting a stuffed bit.  For the payload byte `0x7f`
(bits 1,1,1,1,1,1,1,0 LSB-first) from line state J, the chirp generator
emits 10 chirps: six `j` for the six 1-bits, a stuffed `k`, then for the 7th
1-bit a `k` followed by a SECOND stuffed `j` (because `stuff` stayed at 7),
then `k` for the final 0-bit.  The claim mandates the counter reset, which
would give 9 chirps with a single stuffed bit per run of 6 ones. -/
theorem emit_bytes_double_stuff_on_seven_ones :
    toChirp [127] 0 0 = ((['j', 'j', 'j', 'j', 'j', 'j', 'k', 'k', 'j', 'k']), 1) ∧
    (toChirp [127] 0 0).1.length = 10 := by
  decide

/-- Claim C2 (failing input): because the stuffed-bit counter is never reset,
the chirp sequence `emit_bytes` produces for payload `0xff` from line state J
does not decode back to the payload under standard NRZI decoding plus
bit-unstuffing: the decoder recovers the 10 bits 1,1,1,1,1,1,1,0,1,0 instead
of the 8 payload bits 1,1,1,1,1,1,1,1 (the second, spurious stuffed bit
follows only one decoded 1 and is therefore not removed). -/
theorem emit_bytes_roundtrip_failure :
    specUnstuff 0 (specNrziDecode 'j' (toChirp [255] 0 0).1) =
      [1, 1, 1, 1, 1, 1, 1, 0, 1, 0] ∧
    bytesToBits [255] = [1, 1, 1, 1, 1, 1, 1, 1] ∧
    specUnstuff 0 (specNrziDecode 'j' (toChirp [255] 0 0).1) ≠ bytesToBits [255] := by
  decide

/-- Claim C3 (failing input): `fill_sample` advances the sample counter twice
— once inside `write_samples` and once more itself — so after
`fill_sample([1], 3)` on the program's fresh 2-channel writer (unit size 1)
the counter reads 6 although only 3 bytes were written; the claimed invariant
`sample_count = total bytes / unit_size` is violated. -/
theorem fill_sample_double_counts :
    (testWriter.fill_sample [1] 3).toOption.map (fun w => (w.sample_count, writerBytes w)) =
      some (6, [1, 1, 1]) := by
  simp [testWriter, SimpleSRWriter.init, SimpleSRWriter.fill_sample, SimpleSRWriter.write_samples,
    writeLoop, writerBytes, SimpleSRWriter.sample_count, Except.toOption]

/-- Claim C5 (failing input): `__main__` line 183 constructs the encoder as
`USBSignaling(args.signaling, args.interpolate)`, so the signaling string
fills the `sr` parameter and the `signaling` parameter defaults to `'fs'`.
A run selecting the low-speed profile therefore gets the full-speed mapping
(j maps to 2, k maps to 1) instead of the low-speed mapping (j maps to 1,
k maps to 2). -/
theorem ls_selection_still_uses_fs_mapping :
    ((mainUSBSignaling ("ls") 4).map fun u => (u.c2s 'j', u.c2s 'k', u.c2s 's', u.c2s 'S')) =
      some (2, 1, 0, 3) ∧
    ((CHIRP_TO_SAMPLE ("ls")).map fun m => (m 'j', m 'k', m 's', m 'S')) =
      some (1, 2, 0, 3) := by
  decide

/-- Claim C4, amended: when the encoded duration of the previous packet
(`ends_at_ticks - begins_at_ticks`) exceeds the rounded real inter-packet
delta, the timing loop aborts fatally — but with a fixed error message
carrying no packet index and no cycle counts — and on every exit path of the
run, including that error path, the output writer is finalized: `close()` has
flushed the pending slice and sealed the archive. -/
theorem timing_overrun_aborts_and_archive_closed :
    (∀ (speed interpolate : Nat) (st : LoopSt) (t : Rat) (payload : List Nat)
        (rest : List (Rat × List Nat)),
      pyRound ((t - st.last_pkt_at) * (speed : Rat)) <
          (st.ends_at_ticks : Int) - (st.begins_at_ticks : Int) →
      timingLoop speed interpolate ((t, payload) :: rest) st =
        (.error ("Previous packet cannot be trasferred on time. Wrong signaling type?"), st)) ∧
    (∀ (signaling : String) (interpolate : Nat) (sp ep : Int) (pcap : List (Rat × List Nat)),
      Option.all (fun r => r.2.closed && (r.2.slice_buffer == ([] : List Nat)))
        (runMain signaling interpolate sp ep pcap) = true) :=
  ⟨timingLoop_overrun, runMain_closes⟩

/-- A loop state in which the previous packet consumed 11 bus cycles but the
next packet arrives at the same timestamp. -/
def c4St : LoopSt :=
  { w := testWriter
    u := { state := 'j', _sr := ("fs"), c2s := fsMap, interpolate := 1 }
    begins_at_ticks := 0
    ends_at_ticks := 11
    last_pkt_at := 0 }

/-- Witness for claim C4's theorem at a concrete overrunning state. -/
theorem timing_overrun_aborts_witness :
    timingLoop 12000000 1 [((0 : Rat), [])] c4St =
      (.error ("Previous packet cannot be trasferred on time. Wrong signaling type?"), c4St) :=
  timing_overrun_aborts_and_archive_closed.1 12000000 1 c4St 0 [] []
    (by norm_num [c4St, pyRound_zero])

/-- Witness for claim C6's theorem at cycles -1, 0 and 2 on the program's
writer and a full-speed encoder. -/
theorem emit_stall_spec_witness :
    (testU.emit_stall testWriter (-1) =
      (.error ("Cycles must be 0 or positive."), testWriter, testU)) ∧
    (testU.emit_stall testWriter 0 = (.ok (), testWriter, testU)) ∧
    ((testU.emit_stall testWriter 2).2.2 = testU) ∧
    (writerBytes (testU.emit_stall testWriter 2).2.1 =
      writerBytes testWriter ++ List.replicate ((2 : Int).toNat * testU.interpolate)
        (testU.c2s testU.state)) :=
  ⟨(emit_stall_spec testU testWriter (-1)).1 (by decide),
   (emit_stall_spec testU testWriter 0).2.1 rfl,
   ((emit_stall_spec testU testWriter 2).2.2 (by decide)).1,
   ((emit_stall_spec testU testWriter 2).2.2 (by decide)).2.1 (by decide)⟩

/-- Claim C8: the writer's unit size is the ceiling of the channel count
divided by 8 (the source computes it as `-(-len(channels) // 8)`). -/
theorem unit_size_is_ceil_div_eight (channels : List String)
    (sample_rate slice_limit : Nat) (hpos : 0 < slice_limit) (hne : channels ≠ []) :
    (SimpleSRWriter.init channels sample_rate slice_limit hpos).unit_size =
      (channels.length + 7) / 8 := by
  show (-(Int.fdiv (-(channels.length : Int)) 8)).toNat = _
  rw [Int.fdiv_eq_ediv _ (by norm_num)]
  omega

/-- Witness for claim C8 on the program's 2-channel list, where the unit
size is 1. -/
theorem unit_size_is_ceil_div_eight_witness :
    (SimpleSRWriter.init [("D-"), ("D+")] 48000000 16777216 (by decide)).unit_size =
      (([("D-"), ("D+")] : List String).length + 7) / 8 ∧
    (SimpleSRWriter.init [("D-"), ("D+")] 48000000 16777216 (by decide)).unit_size = 1 :=
  ⟨unit_size_is_ceil_div_eight [("D-"), ("D+")] 48000000 16777216 (by decide) (by decide),
   (unit_size_is_ceil_div_eight [("D-"), ("D+")] 48000000 16777216 (by decide)
      (by decide)).trans (by decide)⟩

/-- Witness for claim C9's theorem on the program's writer and a fresh
full-speed encoder at interpolation 1. -/
theorem emit_sync_fullspeed_witness :
    (testU.emit_sync testWriter).1 = .ok () ∧
    (testU.emit_sync testWriter).2.2.state = 'k' ∧
    writerBytes (testU.emit_sync testWriter).2.1 =
      writerBytes testWriter ++ [1, 2, 1, 2, 1, 2, 1, 1] :=
  emit_sync_fullspeed testU testWriter rfl rfl (by decide)

/-- Claim C10: every emit operation writes through the writer bound to the
module-level global `sr` (the explicit `g` argument of the model, per source
line 114) and never consults the `_sr` field stored by the constructor:
replacing the stored object with any `x` changes nothing in the result or in
the writer except that `x` itself is carried along unchanged. -/
theorem emit_operations_use_global_sr {σ : Type} (g : SimpleSRWriter) (u : USBSignaling σ)
    (x : σ) (seq : List Char) (b : Bool) (payload : List Nat) (cycles : Int) :
    ({ u with _sr := x }).emit_chirps g seq b =
      ((u.emit_chirps g seq b).1, (u.emit_chirps g seq b).2.1,
        { (u.emit_chirps g seq b).2.2 with _sr := x }) ∧
    ({ u with _sr := x }).emit_sync g =
      ((u.emit_sync g).1, (u.emit_sync g).2.1, { (u.emit_sync g).2.2 with _sr := x }) ∧
    ({ u with _sr := x }).emit_eop g =
      ((u.emit_eop g).1, (u.emit_eop g).2.1, { (u.emit_eop g).2.2 with _sr := x }) ∧
    ({ u with _sr := x }).emit_stall g cycles =
      ((u.emit_stall g cycles).1, (u.emit_stall g cycles).2.1,
        { (u.emit_stall g cycles).2.2 with _sr := x }) ∧
    ({ u with _sr := x }).emit_bytes g payload =
      ((u.emit_bytes g payload).1, (u.emit_bytes g payload).2.1,
        { (u.emit_bytes g payload).2.2 with _sr := x }) :=
  ⟨emit_chirps_sr u x g seq b, emit_chirps_sr u x g (("kjkjkjkk").toList) true,
   emit_chirps_sr u x g (("ssj").toList) true, emit_stall_sr u x g cycles,
   emit_bytes_sr u x g payload⟩

end Usbll2sr
